import Mathlib

/-!
Guest-side handshake agent (`src/handshake/run.go`).

A shallow embedding of the agent: `configureNamespace`, `listenForHandshake`
and `main`.  Every call that leaves the program (vsock, netns, os/exec, os,
logrus) is an effect: its result is supplied by an environment record and the
call itself is appended to a trace of events, so that ordering properties can
be read off the trace.
-/

namespace Handshake

/-! ## Go values used by the agent -/

/-- Go `error` values.  `base` is an error produced by the environment,
`errorf pre cause` is `fmt.Errorf(pre + "%w", cause)`, and
`withStack (withMessage cause msg)` is what `errors.Wrap(cause, msg)` of
`github.com/pkg/errors` builds. -/
inductive GoError where
  | base (msg : String)
  | errorf (pre : String) (cause : GoError)
  | withMessage (cause : GoError) (msg : String)
  | withStack (inner : GoError)
  deriving DecidableEq, Repr

namespace GoError

/-- The `Error()` method. -/
def Error : GoError → String
  | base msg => msg
  | errorf pre cause => pre ++ cause.Error
  | withMessage cause msg => msg ++ ": " ++ cause.Error
  | withStack inner => inner.Error

/-- The `Unwrap()` method (`errors.Unwrap`); `none` is Go's `nil`. -/
def Unwrap : GoError → Option GoError
  | base _ => none
  | errorf _ cause => some cause
  | withMessage cause _ => some cause
  | withStack inner => some inner

end GoError

/-- `errors.Wrap(err, message)` of `github.com/pkg/errors`: `nil` stays `nil`,
anything else is annotated with the message and a stack. -/
def errorsWrap (err : Option GoError) (message : String) : Option GoError :=
  match err with
  | none => none
  | some e => some (.withStack (.withMessage e message))

/-- `[]byte(s)`: the UTF-8 bytes of a Go string. -/
def bytes (s : String) : List UInt8 :=
  s.data.flatMap String.utf8EncodeChar

/-- `strconv.Itoa`. -/
def Itoa (i : Int) : String :=
  if i < 0 then "-" ++ Nat.repr i.natAbs else Nat.repr i.natAbs

/-- A vsock connection (`net.Conn`), identified by a number. -/
structure Conn where
  id : Nat
  deriving DecidableEq, Repr

/-- An `*os.File`, identified by its descriptor. -/
structure File where
  fd : Nat
  deriving DecidableEq, Repr

/-- `os.Stdin`. -/
def Stdin : File := ⟨0⟩

/-- `os.Stdout`. -/
def Stdout : File := ⟨1⟩

/-- `os.Stderr`. -/
def Stderr : File := ⟨2⟩

/-- `netns.NsHandle`: a file descriptor. -/
abbrev NsHandle := Int

/-- `netns.None()`: the handle of no namespace. -/
def NsNone : NsHandle := -1

/-- `vsock.CIDAny`. -/
def CIDAny : Nat := 4294967295

/-- `vsock.CIDHost`. -/
def CIDHost : Nat := 2

/-- The port the listener binds. -/
def vsockHandshakePort : Nat := 6669

/-- The port `main` dials on the host. -/
def vsockDialPort : Nat := 6655

/-- The phrase written to every peer of the listener. -/
def SeedPhrase : String := "github.com/rancher-sandbox/rancher-desktop-networking"

/-- The result of a call that returns a value or an error. -/
inductive Res (α : Type) where
  | ok (a : α)
  | fail (e : GoError)
  deriving DecidableEq, Repr

/-- An `exec.Cmd` as the agent fills it in: the streams are `nil` (`none`)
until assigned, and `err` is the error that `exec.Command` recorded when it
looked the name up (`Cmd.Err`), which `Start` returns. -/
structure Cmd where
  path : String
  args : List String
  stdin : Option File
  stdout : Option File
  stderr : Option File
  extraFiles : List File
  err : Option GoError
  deriving DecidableEq, Repr

/-- `filepath.Base` on a system whose separator is `/`: the last element of
the path, trailing slashes removed; "." for the empty path and "/" for a path
of slashes only. -/
def filepathBase (path : String) : String :=
  if path = "" then "."
  else
    let stripped := (path.data.reverse.dropWhile (fun c => c = '/')).reverse
    let last := (stripped.reverse.takeWhile (fun c => c ≠ '/')).reverse
    if last = [] then "/" else String.mk last

/-- `exec.Command(name, arg...)`: `Path` is `name` and `Args` is
`name :: arg`; a name without a separator (`filepath.Base(name) == name`) is
looked up with `exec.LookPath`, here `lookPath`, which returns a path and an
error: a non-empty path replaces `Path`, an error is recorded in `Err`. -/
def Command (lookPath : String → String × Option GoError) (name : String) (arg : List String) :
    Cmd :=
  let cmd : Cmd :=
    { path := name, args := name :: arg, stdin := none, stdout := none, stderr := none,
      extraFiles := [], err := none }
  if filepathBase name = name then
    let lp := lookPath name
    { cmd with path := if lp.1 ≠ "" then lp.1 else cmd.path, err := lp.2 }
  else cmd

/-- `(*exec.Cmd).Start`: the error recorded by `exec.Command` is returned
without starting anything; otherwise the process is started, with the result
`res` that the system gives. -/
def Cmd.Start (c : Cmd) (res : Res Int) : Res Int :=
  match c.err with
  | some e => Res.fail e
  | none => res

/-! ## Effects -/

/-- A logrus level. -/
inductive Level where
  | debug
  | info
  | error
  | fatal
  deriving DecidableEq, Repr

/-- An argument of a logging call. -/
inductive LogArg where
  | str (s : String)
  | err (e : GoError)
  | num (n : Int)
  | conn (c : Conn)
  | ns (h : NsHandle)
  deriving DecidableEq, Repr

/-- A logging call: `fmt` is the format string of the `...f` variants and
`none` for the variants that print their arguments. -/
structure LogCall where
  fmt : Option String
  args : List LogArg
  deriving DecidableEq, Repr

/-- A formatted logging call. -/
def logf (fmt : String) (args : List LogArg) : LogCall := ⟨some fmt, args⟩

/-- An unformatted logging call. -/
def logv (args : List LogArg) : LogCall := ⟨none, args⟩

/-- The two places where `main` starts a process. -/
inductive Proc where
  | isolation
  | switch
  deriving DecidableEq, Repr

/-- One observable effect of the agent. -/
inductive Event where
  | log (lvl : Level) (call : LogCall)
  | listen (cid port : Nat) (err : Option GoError)
  | accept (conn : Option Conn) (err : Option GoError)
  | write (c : Conn) (buf : List UInt8) (err : Option GoError)
  | send (delivered : Bool)
  | closeConn (c : Conn)
  | closeListener
  | recvDone
  | sleep (seconds : Nat)
  | dial (cid port : Nat) (res : Res Conn)
  | nsDelete (name : String) (err : Option GoError)
  | nsCreate (name : String) (res : Res NsHandle)
  | cmdStart (site : Proc) (cmd : Cmd) (res : Res Int)
  | writeFile (path : String) (data : List UInt8) (perm : Nat) (err : Option GoError)
  | createFile (path : String) (res : Res File)
  | connFile (c : Conn) (res : Res File)
  | closeFile (f : Option File)
  | cmdWait (cmd : Cmd) (err : Option GoError)
  deriving DecidableEq, Repr

/-- Put events in front of the trace of the rest of a run. -/
def emit {α : Type} (es : List Event) (r : α × List Event) : α × List Event :=
  (r.1, es ++ r.2)

/-! ## `listenForHandshake` -/

/-- What the environment does with one `l.Accept()`: the pair `(conn, err)`
that `Accept` returns, and the error that `conn.Write` returns if the write is
reached. -/
structure Attempt where
  conn : Option Conn
  acceptErr : Option GoError
  writeErr : Option GoError
  deriving DecidableEq, Repr

/-- How the listener goroutine ends. -/
inductive Ending where
  | returned
  | panicked
  | fatal (call : LogCall)
  | blockedOnAccept
  | blockedOnSend
  deriving DecidableEq, Repr

/-- The deferred calls of `listenForHandshake`, run when the function returns
or panics, last deferred first: every `conn.Close()` registered so far, then
`l.Close()`.  The list is the defer stack, most recent first. -/
def runDeferred (deferred : List Conn) : List Event :=
  deferred.map Event.closeConn ++ [Event.closeListener]

/-- The `for` loop of `listenForHandshake`.  `deferred` is the stack of
connections whose `Close` has been deferred, the list holds what the
environment answers to the successive `Accept` calls (when it is used up
`Accept` blocks), and `recvs` is the number of receives the other end of
`done` still performs (a send with no receiver blocks).

`defer conn.Close()` stands before the error check: the method value of a nil
interface is evaluated there, which panics. -/
def listenLoop (deferred : List Conn) : List Attempt → Nat → Ending × List Event
  | [], _ => (Ending.blockedOnAccept, [])
  | a :: rest, recvs =>
    emit [Event.accept a.conn a.acceptErr] <|
      match a.conn with
      | none => (Ending.panicked, runDeferred deferred)
      | some conn =>
        match a.acceptErr with
        | some err =>
          (Ending.returned,
            Event.log Level.error (logf "listenForHandshake connection accept: %v" [LogArg.err err])
              :: runDeferred (conn :: deferred))
        | none =>
          emit [Event.write conn (bytes SeedPhrase) a.writeErr] <|
            match a.writeErr with
            | some err =>
              (Ending.returned,
                Event.log Level.error
                    (logf "listenForHandshake writing CIDHost: %v\n" [LogArg.err err])
                  :: runDeferred (conn :: deferred))
            | none =>
              emit [Event.log Level.info (logv [LogArg.str "successful handshake with host switch"])] <|
                match recvs with
                | 0 => (Ending.blockedOnSend, [Event.send false])
                | n + 1 => emit [Event.send true] (listenLoop (conn :: deferred) rest n)

/-- The function `listenForHandshake(done)`: `listenErr` is the error of
`vsock.Listen`, the other two arguments are those of `listenLoop`. -/
def listenForHandshake (listenErr : Option GoError) (peers : List Attempt) (recvs : Nat) :
    Ending × List Event :=
  emit [Event.listen CIDAny vsockHandshakePort listenErr] <|
    match listenErr with
    | some err =>
      let call := logf "listenForHandshake listen failed: %v" [LogArg.err err]
      (Ending.fatal call, [Event.log Level.fatal call])
    | none => listenLoop [] peers recvs

/-! ## `configureNamespace` -/

/-- The two calls into `github.com/vishvananda/netns`, over a state `σ` of the
namespace table: each returns its result and the new state. -/
structure NetnsOps (σ : Type) where
  DeleteNamed : String → σ → Option GoError × σ
  NewNamed : String → σ → Res NsHandle × σ

/-- What `configureNamespace` returns, with the state it leaves and its
events. -/
structure NsResult (σ : Type) where
  handle : NsHandle
  err : Option GoError
  state : σ
  trace : List Event

/-- The function `configureNamespace(ns)`. -/
def configureNamespace {σ : Type} (ops : NetnsOps σ) (ns : String) (s : σ) : NsResult σ :=
  let d := ops.DeleteNamed ns s
  let c := ops.NewNamed ns d.2
  match c.1 with
  | Res.fail err =>
    { handle := NsNone
      err := errorsWrap (some err) "creating new namespace failed"
      state := c.2
      trace := [Event.nsDelete ns d.1, Event.nsCreate ns (Res.fail err)] }
  | Res.ok rdNs =>
    { handle := rdNs
      err := none
      state := c.2
      trace := [Event.nsDelete ns d.1, Event.nsCreate ns (Res.ok rdNs),
        Event.log Level.info
          (logf "created a new namespace %v %v" [LogArg.str ns, LogArg.ns rdNs])] }

/-! ## `main` -/

/-- Everything the environment decides in one run of `main`.  `lookPath` is
`exec.LookPath`.  `panicAfter` matters only when the listener goroutine panics
after it has delivered its signal: it is the number of calls, logging apart,
that the main goroutine completes after its receive before that panic ends
the process. -/
structure Env (σ : Type) where
  childPath : String
  unshareArg : String
  lookPath : String → String × Option GoError
  listenErr : Option GoError
  peers : List Attempt
  panicAfter : Nat
  dial : Res Conn
  netns : NetnsOps σ
  nsState : σ
  unshareStart : Res Int
  writePid : Option GoError
  createLog : Res File
  connFile : Res File
  childStart : Res Int
  childWait : Option GoError

/-- How the agent ends: `success` is a return from `main` (exit status 0),
`fatal` is a `logrus.Fatal`/`Fatalf` call (exit status 1), `panicked` an
unrecovered panic of the listener goroutine (exit status 2), `deadlock` is
`main` waiting on `done` for ever. -/
inductive Outcome where
  | success
  | fatal (call : LogCall)
  | panicked
  | deadlock
  deriving DecidableEq, Repr

/-- A finished run: outcome, events of the main goroutine, namespace table. -/
structure Run (σ : Type) where
  outcome : Outcome
  trace : List Event
  nsState : σ

/-- `logrus.Fatal`/`Fatalf`: log and exit. -/
def fatalRun {σ : Type} (s : σ) (call : LogCall) : Run σ :=
  { outcome := Outcome.fatal call, trace := [Event.log Level.fatal call], nsState := s }

/-- Put events in front of a run. -/
def Run.after {σ : Type} (es : List Event) (r : Run σ) : Run σ :=
  { r with trace := es ++ r.trace }

/-- Whether an event is a logging call. -/
def Event.isLog : Event → Bool
  | Event.log _ _ => true
  | _ => false

/-- The number of calls in a trace, logging apart. -/
def countCalls (tr : List Event) : Nat :=
  (tr.filter (fun e => !e.isLog)).length

/-- What is left of a trace when the process dies after `k` of its calls,
logging apart, have completed: the events up to the call that would have
been the next, which did not return. -/
def cutTrace : Nat → List Event → List Event
  | _, [] => []
  | k, e :: es =>
    if e.isLog then e :: cutTrace k es
    else
      match k with
      | 0 => []
      | k + 1 => e :: cutTrace k es

/-- The namespace table after one event: the two netns calls change it. -/
def nsStep {σ : Type} (ops : NetnsOps σ) (s : σ) : Event → σ
  | Event.nsDelete name _ => (ops.DeleteNamed name s).2
  | Event.nsCreate name _ => (ops.NewNamed name s).2
  | _ => s

/-- The namespace table after the events of a trace, from the table `s`. -/
def nsAfter {σ : Type} (ops : NetnsOps σ) (s : σ) (tr : List Event) : σ :=
  tr.foldl (nsStep ops) s

/-- The run `r` of the main goroutine when a panic of another goroutine ends
the process after `k` calls of `r`: if `r` has no more calls than that it has
ended before the panic and stands as it is; otherwise its trace is cut and
the process ends panicking.  The panic takes effect between two calls: a
call and the logging that follows it, `logrus.Fatal` and its exit included,
are one step. -/
def Run.interrupt {σ : Type} (ops : NetnsOps σ) (s : σ) (k : Nat) (r : Run σ) : Run σ :=
  if countCalls r.trace ≤ k then r
  else
    { outcome := Outcome.panicked
      trace := cutTrace k r.trace
      nsState := nsAfter ops s (cutTrace k r.trace) }

/-- The command of the isolation process. -/
def unshareCmd (lookPath : String → String × Option GoError) (unshareArg : String) : Cmd :=
  { Command lookPath "/usr/bin/nsenter"
      ["-n/run/netns/rd1", "-F", "/usr/bin/unshare", "--pid", "--mount-proc", "--fork",
        "--propagation", "slave", unshareArg] with
    stdin := some Stdin, stdout := some Stdout, stderr := some Stderr }

/-- Lines 112-122: wait for the switch child in an errgroup and end. -/
def waitStage {σ : Type} (env : Env σ) (s : σ) (subProcess : Cmd) : Run σ :=
  Run.after [Event.cmdWait subProcess env.childWait] <|
    match env.childWait with
    | some err => fatalRun s (logv [LogArg.err (GoError.errorf "vm-switch exited with error: " err)])
    | none =>
      { outcome := Outcome.success
        trace := [Event.log Level.info (logf "handshake process done" [])]
        nsState := s }

/-- Lines 100-110: hand the connection over and start the switch child. -/
def startStage {σ : Type} (env : Env σ) (s : σ) (conn : Conn) (subProcess : Cmd)
    (logFile : Option File) : Run σ :=
  Run.after [Event.connFile conn env.connFile] <|
    match env.connFile with
    | Res.fail err => fatalRun s (logf "failed to get vsock connection fd: %v" [LogArg.err err])
    | Res.ok connFile =>
      let subProcess := { subProcess with extraFiles := [connFile] }
      let started := subProcess.Start env.childStart
      Run.after [Event.cmdStart Proc.switch subProcess started] <|
        match started with
        | Res.fail err => fatalRun s (logf "could not start the child process: %v" [LogArg.err err])
        | Res.ok pid =>
          Run.after [Event.closeFile logFile,
              Event.log Level.info
                (logf "successfully started the child process vm-switch running with a PID: %v"
                  [LogArg.num pid])] <|
            waitStage env s subProcess

/-- Lines 92-99: build the switch command and open its log file. -/
def handoffStage {σ : Type} (env : Env σ) (s : σ) (conn : Conn) : Run σ :=
  let subProcess := Command env.lookPath env.childPath ["-debug"]
  Run.after [Event.createFile "/var/logs/vm-switch.log" env.createLog] <|
    match env.createLog with
    | Res.fail err =>
      Run.after [Event.log Level.error
          (logf "failed to create log file for vm-switch: %v" [LogArg.err err])] <|
        startStage env s conn subProcess none
    | Res.ok logFile =>
      startStage env s conn { subProcess with stdout := some logFile, stderr := some logFile }
        (some logFile)

/-- Lines 68-84: start the isolation process and record its pid. -/
def isolationStage {σ : Type} (env : Env σ) (s : σ) (conn : Conn) : Run σ :=
  let unshareCmd := unshareCmd env.lookPath env.unshareArg
  let started := unshareCmd.Start env.unshareStart
  Run.after [Event.cmdStart Proc.isolation unshareCmd started] <|
    match started with
    | Res.fail err => fatalRun s (logf "could not start the unshare process: %v" [LogArg.err err])
    | Res.ok pid =>
      let unsharePID := Itoa pid
      Run.after [Event.writeFile "/run/wsl-init.pid" (bytes unsharePID) 0o644 env.writePid] <|
        match env.writePid with
        | some err => fatalRun s (logv [LogArg.err err])
        | none =>
          Run.after [Event.log Level.info (logf "unshare pid is: %v" [LogArg.str unsharePID]),
              Event.log Level.info (logf "unshare arg is: %s" [LogArg.str env.unshareArg])] <|
            handoffStage env s conn

/-- Lines 62-66: set up the network namespace. -/
def namespaceStage {σ : Type} (env : Env σ) (conn : Conn) : Run σ :=
  let r := configureNamespace env.netns "rd1" env.nsState
  Run.after r.trace <|
    match r.err with
    | some err => fatalRun r.state (logv [LogArg.err err])
    | none => isolationStage env r.state conn

/-- Lines 51-58: wait, then dial the host on the data port. -/
def dialStage {σ : Type} (env : Env σ) : Run σ :=
  Run.after [Event.sleep 5, Event.dial CIDHost vsockDialPort env.dial] <|
    match env.dial with
    | Res.fail err => fatalRun env.nsState (logf "cannot connect to host: %v" [LogArg.err err])
    | Res.ok conn =>
      Run.after [Event.log Level.debug
          (logf "dialed host %v:%d: %+v"
            [LogArg.num CIDHost, LogArg.num vsockDialPort, LogArg.conn conn])] <|
        namespaceStage env conn

/-- Lines 47-49: start the listener goroutine and receive from `done`.  The
main goroutine is the only receiver and receives once.  When the listener
delivers no signal the run ends the way the listener does.  When it delivers
one, `main` goes on while the listener goes back to `Accept`: if the listener
then panics (at `defer conn.Close()` on a nil connection) the whole process
dies with it, after `env.panicAfter` further calls of `main`, unless `main`
has ended before; any other ending of the listener leaves `main` alone. -/
def handshakeStage {σ : Type} (env : Env σ) : Run σ :=
  let l := listenForHandshake env.listenErr env.peers 1
  if Event.send true ∈ l.2 then
    Run.after [Event.recvDone] <|
      match l.1 with
      | Ending.panicked =>
        Run.interrupt env.netns env.nsState env.panicAfter (dialStage env)
      | _ => dialStage env
  else
    match l.1 with
    | Ending.fatal call => { outcome := Outcome.fatal call, trace := [], nsState := env.nsState }
    | Ending.panicked => { outcome := Outcome.panicked, trace := [], nsState := env.nsState }
    | _ => { outcome := Outcome.deadlock, trace := [], nsState := env.nsState }

/-- The function `main`: the effects of the main goroutine and the way the
process ends.  The events of the listener goroutine are in the trace of
`listenForHandshake`, not in this one. -/
def main {σ : Type} (env : Env σ) : Run σ :=
  if env.childPath = "" then
    fatalRun env.nsState (logv [LogArg.str "path to the child sub process must be provided"])
  else if env.unshareArg = "" then
    fatalRun env.nsState (logv [LogArg.str "unshare program arg must be provided"])
  else
    Run.after [Event.log Level.info (logv [LogArg.str "Starting handhsake..."])] <|
      handshakeStage env

/-! ## Reading a trace -/

/-- The connections that `Accept` handed over without an error, in order. -/
def acceptedConns : List Event → List Conn
  | [] => []
  | Event.accept (some c) none :: es => c :: acceptedConns es
  | _ :: es => acceptedConns es

/-- The `Write` calls of a trace, in order: connection and buffer. -/
def writeCalls : List Event → List (Conn × List UInt8)
  | [] => []
  | Event.write c buf _ :: es => (c, buf) :: writeCalls es
  | _ :: es => writeCalls es

/-- The writes and the sends on `done`: what is left of a trace when only
these are kept. -/
inductive Mark where
  | wrote (ok : Bool)
  | signal (delivered : Bool)
  deriving DecidableEq, Repr

/-- The writes (with whether they succeeded) and the sends of a trace. -/
def marks : List Event → List Mark
  | [] => []
  | Event.write _ _ err :: es => Mark.wrote err.isNone :: marks es
  | Event.send delivered :: es => Mark.signal delivered :: marks es
  | _ :: es => marks es

/-- Every successful write is followed by one send before anything else:
either the send is delivered, or it finds no receiver and nothing follows it;
a failed write is followed by nothing; and there is no other send. -/
def signalledOncePerWrite : List Mark → Bool
  | [] => true
  | [Mark.wrote false] => true
  | [Mark.wrote true, Mark.signal false] => true
  | Mark.wrote true :: Mark.signal true :: ms => signalledOncePerWrite ms
  | _ => false

/-- What the environment does with an `Accept` that hands over the connection
`c` and lets the write to it succeed. -/
def served (c : Conn) : Attempt :=
  ⟨some c, none, none⟩

/-- The part of a trace up to the first occurrence of the event `x`, with the
logging that directly follows it. -/
def takeThrough (x : Event) : List Event → List Event
  | [] => []
  | e :: es => if e = x then e :: es.takeWhile Event.isLog else e :: takeThrough x es

/-- A namespace table: the names that exist.  `DeleteNamed` removes an
existing name and fails on an absent one, `NewNamed` adds an absent name and
fails on an existing one. -/
def tableOps : NetnsOps (List String) :=
  { DeleteNamed := fun n s =>
      if n ∈ s then (none, s.filter (fun m => m ≠ n))
      else (some (GoError.base "no such file or directory"), s)
    NewNamed := fun n s =>
      if n ∈ s then (Res.fail (GoError.base "file exists"), s)
      else (Res.ok (3 + s.length), n :: s) }

/-- The stages of the agent-level state machine. -/
inductive Stage where
  | namespaceReady
  | handshakeDone
  | channelDialed
  | isolationLaunched
  | switchRunning
  deriving DecidableEq, Repr

/-- The stage an event completes, if any: the namespace is ready when
`netns.NewNamed` succeeds, the handshake is done when `main` receives from
`done`, the channel is dialed when `vsock.Dial` succeeds, and a process is
launched or running when its `Start` succeeds. -/
def stageOf : Event → Option Stage
  | Event.nsCreate _ (Res.ok _) => some Stage.namespaceReady
  | Event.recvDone => some Stage.handshakeDone
  | Event.dial _ _ (Res.ok _) => some Stage.channelDialed
  | Event.cmdStart Proc.isolation _ (Res.ok _) => some Stage.isolationLaunched
  | Event.cmdStart Proc.switch _ (Res.ok _) => some Stage.switchRunning
  | _ => none

/-- The stage completions of a trace, in order. -/
def stages (tr : List Event) : List Stage :=
  tr.filterMap stageOf

/-- A run in which everything succeeds: one host connection is served, the
namespace "rd1" exists from an earlier run, the isolation process gets pid 41
and the switch child pid 42 and exits cleanly. -/
def sampleEnv : Env (List String) :=
  { childPath := "/usr/local/bin/vm-switch"
    unshareArg := "/sbin/init"
    lookPath := fun name => ("/usr/bin/" ++ name, none)
    listenErr := none
    peers := [⟨some ⟨1⟩, none, none⟩]
    panicAfter := 0
    dial := Res.ok ⟨2⟩
    netns := tableOps
    nsState := ["rd1"]
    unshareStart := Res.ok 41
    writePid := none
    createLog := Res.ok ⟨7⟩
    connFile := Res.ok ⟨8⟩
    childStart := Res.ok 42
    childWait := none }

/-- The events of `main` from its receive to the start of the isolation
process, in a run where everything up to there succeeds: `conn` is the dialed connection and
`rdNs` the handle of the created namespace. -/
def setupEvents {σ : Type} (env : Env σ) (conn : Conn) (rdNs : NsHandle) : List Event :=
  [Event.sleep 5,
    Event.dial CIDHost vsockDialPort (Res.ok conn),
    Event.log Level.debug
      (logf "dialed host %v:%d: %+v"
        [LogArg.num CIDHost, LogArg.num vsockDialPort, LogArg.conn conn]),
    Event.nsDelete "rd1" (env.netns.DeleteNamed "rd1" env.nsState).1,
    Event.nsCreate "rd1" (Res.ok rdNs),
    Event.log Level.info (logf "created a new namespace %v %v" [LogArg.str "rd1", LogArg.ns rdNs])]

/-- The events that occur between the receive from `done` and the start of
the isolation process: logging, the sleep, the dial and the namespace calls. -/
def Event.isSetup : Event → Bool
  | Event.log _ _ => true
  | Event.sleep _ => true
  | Event.dial _ _ _ => true
  | Event.nsDelete _ _ => true
  | Event.nsCreate _ _ => true
  | _ => false

/-- The events that occur from the start of the isolation process on:
logging, process starts and waits, and file calls. -/
def Event.isLate : Event → Bool
  | Event.log _ _ => true
  | Event.cmdStart _ _ _ => true
  | Event.writeFile _ _ _ _ => true
  | Event.createFile _ _ => true
  | Event.connFile _ _ => true
  | Event.closeFile _ => true
  | Event.cmdWait _ _ => true
  | _ => false

/-- The events that occur from the opening of the log file on: logging, the
file calls other than a write, the start of the switch child and its wait. -/
def Event.isHandoff : Event → Bool
  | Event.log _ _ => true
  | Event.cmdStart Proc.switch _ _ => true
  | Event.createFile _ _ => true
  | Event.connFile _ _ => true
  | Event.closeFile _ => true
  | Event.cmdWait _ _ => true
  | _ => false

/-- The command of the switch child in the run `sampleEnv`. -/
def sampleSwitchCmd : Cmd :=
  { path := "/usr/local/bin/vm-switch", args := ["/usr/local/bin/vm-switch", "-debug"],
    stdin := none, stdout := some ⟨7⟩, stderr := some ⟨7⟩, extraFiles := [⟨8⟩], err := none }

/-- The run `sampleEnv` with the dial refused. -/
def dialFailEnv : Env (List String) :=
  { sampleEnv with dial := Res.fail (GoError.base "connection refused") }

/-- The run `sampleEnv` with the isolation process failing to start. -/
def unshareFailEnv : Env (List String) :=
  { sampleEnv with unshareStart := Res.fail (GoError.base "exec: nsenter: not found") }

/-- The run `sampleEnv` with the switch child exiting with status 1. -/
def childFailEnv : Env (List String) :=
  { sampleEnv with childWait := some (GoError.base "exit status 1") }

/-- The run `sampleEnv` with the write of the PID file refused. -/
def pidWriteFailEnv : Env (List String) :=
  { sampleEnv with
    writePid := some (GoError.base "open /run/wsl-init.pid: permission denied") }

/-- The run `sampleEnv` with a second `Accept` of the listener that fails
while `main` waits for the switch child: ten calls of `main` after its
receive are completed by then, the last being `logFile.Close()`. -/
def listenerPanicEnv : Env (List String) :=
  { sampleEnv with
    peers := [served ⟨1⟩, ⟨none, some (GoError.base "accept: bad file descriptor"), none⟩]
    panicAfter := 10 }

/-- The run `sampleEnv` with the log file not opening. -/
def noLogEnv : Env (List String) :=
  { sampleEnv with
    createLog :=
      Res.fail (GoError.base "open /var/logs/vm-switch.log: no such file or directory") }


/-- The run `noLogEnv` with no descriptor to be had from the connection. -/
def noLogNoFdEnv : Env (List String) :=
  { noLogEnv with connFile := Res.fail (GoError.base "bad file descriptor") }
/-! ## The listener -/

theorem acceptedConns_runDeferred (d : List Conn) :
    acceptedConns (List.map Event.closeConn d ++ [Event.closeListener]) = [] := by
  induction d with
  | nil => rfl
  | cons c d ih => simpa [acceptedConns] using ih

theorem writeCalls_runDeferred (d : List Conn) :
    writeCalls (List.map Event.closeConn d ++ [Event.closeListener]) = [] := by
  induction d with
  | nil => rfl
  | cons c d ih => simpa [writeCalls] using ih

theorem marks_runDeferred (d : List Conn) :
    marks (List.map Event.closeConn d ++ [Event.closeListener]) = [] := by
  induction d with
  | nil => rfl
  | cons c d ih => simpa [marks] using ih

theorem listenLoop_writes (peers : List Attempt) :
    ∀ (d : List Conn) (recvs : Nat),
      writeCalls (listenLoop d peers recvs).2
        = (acceptedConns (listenLoop d peers recvs).2).map (fun c => (c, bytes SeedPhrase)) := by
  induction peers with
  | nil => intro d recvs; rfl
  | cons a rest ih =>
    intro d recvs
    obtain ⟨conn, acceptErr, writeErr⟩ := a
    cases conn with
    | none =>
      cases acceptErr <;>
        simp [listenLoop, emit, runDeferred, writeCalls, acceptedConns, writeCalls_runDeferred,
          acceptedConns_runDeferred]
    | some c =>
      cases acceptErr with
      | some e =>
        simp [listenLoop, emit, runDeferred, writeCalls, acceptedConns, writeCalls_runDeferred,
          acceptedConns_runDeferred]
      | none =>
        cases writeErr with
        | some e =>
          simp [listenLoop, emit, runDeferred, writeCalls, acceptedConns, writeCalls_runDeferred,
            acceptedConns_runDeferred]
        | none =>
          cases recvs with
          | zero => simp [listenLoop, emit, writeCalls, acceptedConns]
          | succ n => simpa [listenLoop, emit, writeCalls, acceptedConns] using ih (c :: d) n

theorem listenLoop_marks (peers : List Attempt) :
    ∀ (d : List Conn) (recvs : Nat),
      signalledOncePerWrite (marks (listenLoop d peers recvs).2) = true := by
  induction peers with
  | nil => intro d recvs; rfl
  | cons a rest ih =>
    intro d recvs
    obtain ⟨conn, acceptErr, writeErr⟩ := a
    cases conn with
    | none => simp [listenLoop, emit, runDeferred, marks, marks_runDeferred, signalledOncePerWrite]
    | some c =>
      cases acceptErr with
      | some e => simp [listenLoop, emit, runDeferred, marks, marks_runDeferred, signalledOncePerWrite]
      | none =>
        cases writeErr with
        | some e => simp [listenLoop, emit, runDeferred, marks, marks_runDeferred, signalledOncePerWrite]
        | none =>
          cases recvs with
          | zero => simp [listenLoop, emit, marks, signalledOncePerWrite]
          | succ n => simpa [listenLoop, emit, marks, signalledOncePerWrite] using ih (c :: d) n

theorem bytes_SeedPhrase :
    bytes SeedPhrase
      = (String.toUTF8 "github.com/rancher-sandbox/rancher-desktop-networking").data.toList :=
  rfl

/-- The loop on peers that are all served, with a receiver for each: their
events, one peer after the other, and then the loop on what follows. -/
theorem listenLoop_served (good : List Conn) :
    ∀ (d : List Conn) (rest : List Attempt) (recvs : Nat), good.length ≤ recvs →
      listenLoop d (good.map served ++ rest) recvs
        = emit
            (good.flatMap fun c =>
              [Event.accept (some c) none, Event.write c (bytes SeedPhrase) none,
                Event.log Level.info (logv [LogArg.str "successful handshake with host switch"]),
                Event.send true])
            (listenLoop (good.reverse ++ d) rest (recvs - good.length)) := by
  induction good with
  | nil => intro d rest recvs _; simp [emit]
  | cons c g ih =>
    intro d rest recvs hle
    cases recvs with
    | zero => simp at hle
    | succ n =>
      have hg := ih (c :: d) rest n (by simpa using hle)
      simp [listenLoop, emit, served, hg]

/-- C5: in every run of `listenForHandshake` the `Write` calls are, in order,
one per accepted connection, each with exactly the bytes of the phrase
"github.com/rancher-sandbox/rancher-desktop-networking"; among the writes and
the sends on `done`, every write that succeeds is followed by one send, a
write that fails by none, and there is no other send.  On peers `good` that
are accepted and written to without error, with a receiver on `done` for each,
the listener accepts each, writes the phrase to it once, and sends one signal,
which is delivered, before it turns to the next.  A connection whose write
fails gets that one write and no send, and the listener returns.  A send that
finds no receiver is made once and blocks. -/
theorem listenForHandshake_writes_phrase_and_signals (listenErr : Option GoError)
    (peers : List Attempt) (recvs : Nat) (good : List Conn) (rest : List Attempt) (n : Nat)
    (h : good.length ≤ n) :
    writeCalls (listenForHandshake listenErr peers recvs).2
        = (acceptedConns (listenForHandshake listenErr peers recvs).2).map
            (fun c =>
              (c, (String.toUTF8 "github.com/rancher-sandbox/rancher-desktop-networking").data.toList))
      ∧ signalledOncePerWrite (marks (listenForHandshake listenErr peers recvs).2) = true
      ∧ listenForHandshake none (good.map served ++ rest) n
        = emit
            (Event.listen CIDAny vsockHandshakePort none ::
              good.flatMap fun c =>
                [Event.accept (some c) none,
                  Event.write c
                    (String.toUTF8 "github.com/rancher-sandbox/rancher-desktop-networking").data.toList
                    none,
                  Event.log Level.info
                    (logv [LogArg.str "successful handshake with host switch"]),
                  Event.send true])
            (listenLoop good.reverse rest (n - good.length))
      ∧ (∀ (d : List Conn) (c : Conn) (e : GoError) (m : Nat),
          listenLoop d (⟨some c, none, some e⟩ :: rest) m
            = (Ending.returned,
                [Event.accept (some c) none,
                  Event.write c
                    (String.toUTF8 "github.com/rancher-sandbox/rancher-desktop-networking").data.toList
                    (some e),
                  Event.log Level.error
                    (logf "listenForHandshake writing CIDHost: %v\n" [LogArg.err e])]
                  ++ runDeferred (c :: d)))
      ∧ (∀ (d : List Conn) (c : Conn),
          listenLoop d (served c :: rest) 0
            = (Ending.blockedOnSend,
                [Event.accept (some c) none,
                  Event.write c
                    (String.toUTF8 "github.com/rancher-sandbox/rancher-desktop-networking").data.toList
                    none,
                  Event.log Level.info
                    (logv [LogArg.str "successful handshake with host switch"]),
                  Event.send false])) := by
  rw [← bytes_SeedPhrase]
  refine ⟨?_, ?_, ?_, ?_, ?_⟩
  · cases listenErr with
    | some e => simp [listenForHandshake, emit, writeCalls, acceptedConns]
    | none =>
      have h1 := listenLoop_writes peers [] recvs
      simp [listenForHandshake, emit, writeCalls, acceptedConns, h1]
  · cases listenErr with
    | some e => simp [listenForHandshake, emit, marks, signalledOncePerWrite]
    | none =>
      have h2 := listenLoop_marks peers [] recvs
      simp [listenForHandshake, emit, marks, h2]
  · have h3 := listenLoop_served good [] rest n h
    simp [listenForHandshake, emit, h3]
  · intro d c e m
    simp [listenLoop, emit]
  · intro d c
    simp [listenLoop, emit, served]

/-- Witness for C5: one peer served, with the single receiver that `main` is. -/
theorem listenForHandshake_writes_phrase_and_signals_witness :
    [(⟨1⟩ : Conn)].length ≤ 1
      ∧ listenForHandshake none [served ⟨1⟩] 1
        = (Ending.blockedOnAccept,
            [Event.listen 4294967295 6669 none,
              Event.accept (some ⟨1⟩) none,
              Event.write ⟨1⟩
                [103, 105, 116, 104, 117, 98, 46, 99, 111, 109, 47, 114, 97, 110, 99, 104, 101,
                  114, 45, 115, 97, 110, 100, 98, 111, 120, 47, 114, 97, 110, 99, 104, 101, 114,
                  45, 100, 101, 115, 107, 116, 111, 112, 45, 110, 101, 116, 119, 111, 114, 107,
                  105, 110, 103]
                none,
              Event.log Level.info (logv [LogArg.str "successful handshake with host switch"]),
              Event.send true]) :=
  ⟨by decide,
    (listenForHandshake_writes_phrase_and_signals none [] 0 [⟨1⟩] [] 1 (by decide)).2.2.1.trans
      (by decide)⟩

/-- When the write to an accepted connection fails, the loop logs the error
and returns, running the deferred calls: no send, no further `Accept`. -/
theorem listenLoop_write_failure (d : List Conn) (c : Conn) (err : GoError)
    (rest : List Attempt) (recvs : Nat) :
    listenLoop d (⟨some c, none, some err⟩ :: rest) recvs
      = (Ending.returned,
          [Event.accept (some c) none, Event.write c (bytes SeedPhrase) (some err),
            Event.log Level.error
              (logf "listenForHandshake writing CIDHost: %v\n" [LogArg.err err])]
            ++ runDeferred (c :: d)) := by
  simp [listenLoop, emit]

/-- C6: when `Accept` fails, returning no connection and an error, the listener
panics at `defer conn.Close()`: it ends panicking, having logged nothing, where
the claim has it log the error and return. -/
theorem listenForHandshake_accept_failure_panics (err : GoError) (rest : List Attempt)
    (recvs : Nat) :
    listenForHandshake none (⟨none, some err, none⟩ :: rest) recvs
      = (Ending.panicked,
          [Event.listen CIDAny vsockHandshakePort none, Event.accept none (some err),
            Event.closeListener]) := by
  simp [listenForHandshake, listenLoop, emit, runDeferred]

/-- C9: after two connections served in a row the listener waits in `Accept`
again and has closed neither connection: the first one was still open when the
second was accepted. -/
theorem listenForHandshake_keeps_connections_open (c1 c2 : Conn) :
    listenForHandshake none [⟨some c1, none, none⟩, ⟨some c2, none, none⟩] 2
      = (Ending.blockedOnAccept,
          [Event.listen CIDAny vsockHandshakePort none,
            Event.accept (some c1) none, Event.write c1 (bytes SeedPhrase) none,
            Event.log Level.info (logv [LogArg.str "successful handshake with host switch"]),
            Event.send true,
            Event.accept (some c2) none, Event.write c2 (bytes SeedPhrase) none,
            Event.log Level.info (logv [LogArg.str "successful handshake with host switch"]),
            Event.send true])
      ∧ Event.closeConn c1
          ∉ (listenForHandshake none [⟨some c1, none, none⟩, ⟨some c2, none, none⟩] 2).2 := by
  simp [listenForHandshake, listenLoop, emit]

/-! ## The namespace -/

/-- C3: `configureNamespace` first attempts the deletion and then the creation,
on the state the deletion left; what the deletion returns changes nothing in
the result; an error is returned exactly when the creation fails, it is then
`errors.Wrap` of the creation error with "creating new namespace failed" and the
handle is `netns.None()`; when the creation succeeds the created handle is
returned with no error. -/
theorem configureNamespace_contract {σ : Type} (ops : NetnsOps σ) (ns : String) (s : σ) :
    (configureNamespace ops ns s).trace.take 2
        = [Event.nsDelete ns (ops.DeleteNamed ns s).1,
            Event.nsCreate ns (ops.NewNamed ns (ops.DeleteNamed ns s).2).1]
      ∧ (configureNamespace ops ns s).state = (ops.NewNamed ns (ops.DeleteNamed ns s).2).2
      ∧ (∀ delErr : String → σ → Option GoError,
          (configureNamespace
              { ops with DeleteNamed := fun n t => (delErr n t, (ops.DeleteNamed n t).2) } ns s).handle
            = (configureNamespace ops ns s).handle
          ∧ (configureNamespace
              { ops with DeleteNamed := fun n t => (delErr n t, (ops.DeleteNamed n t).2) } ns s).err
            = (configureNamespace ops ns s).err
          ∧ (configureNamespace
              { ops with DeleteNamed := fun n t => (delErr n t, (ops.DeleteNamed n t).2) } ns s).state
            = (configureNamespace ops ns s).state)
      ∧ ((configureNamespace ops ns s).err ≠ none
          ↔ ∃ e, (ops.NewNamed ns (ops.DeleteNamed ns s).2).1 = Res.fail e)
      ∧ (∀ e, (ops.NewNamed ns (ops.DeleteNamed ns s).2).1 = Res.fail e →
          (configureNamespace ops ns s).err
              = errorsWrap (some e) "creating new namespace failed"
            ∧ (configureNamespace ops ns s).err
              = some (GoError.withStack (GoError.withMessage e "creating new namespace failed"))
            ∧ (GoError.withStack (GoError.withMessage e "creating new namespace failed")).Error
              = "creating new namespace failed: " ++ e.Error
            ∧ ((GoError.withStack
                  (GoError.withMessage e "creating new namespace failed")).Unwrap.bind
                GoError.Unwrap) = some e
            ∧ (configureNamespace ops ns s).handle = NsNone)
      ∧ (∀ h, (ops.NewNamed ns (ops.DeleteNamed ns s).2).1 = Res.ok h →
          (configureNamespace ops ns s).handle = h ∧ (configureNamespace ops ns s).err = none) := by
  cases hc : (ops.NewNamed ns (ops.DeleteNamed ns s).2).1 with
  | ok h => simp [configureNamespace, hc]
  | fail e => simp [configureNamespace, hc, errorsWrap, GoError.Error, GoError.Unwrap]

/-- C4: over a namespace table where deleting a name leaves it absent (an
existing name is removed, an absent one is not brought about) and creating an
absent name succeeds and brings it about, two calls of `configureNamespace` in
a row both return no error and both leave the name present, whatever the table
was at the start. -/
theorem configureNamespace_twice {σ : Type} (ops : NetnsOps σ) (present : σ → String → Bool)
    (hdel : ∀ n s, present s n = true → present (ops.DeleteNamed n s).2 n = false)
    (hdel_absent : ∀ n s, present s n = false → present (ops.DeleteNamed n s).2 n = false)
    (hnew : ∀ n s, present s n = false →
      (∃ h, (ops.NewNamed n s).1 = Res.ok h) ∧ present (ops.NewNamed n s).2 n = true)
    (ns : String) (s : σ) :
    (configureNamespace ops ns s).err = none
      ∧ present (configureNamespace ops ns s).state ns = true
      ∧ (configureNamespace ops ns (configureNamespace ops ns s).state).err = none
      ∧ present (configureNamespace ops ns (configureNamespace ops ns s).state).state ns = true := by
  have hgone : ∀ t, present (ops.DeleteNamed ns t).2 ns = false := by
    intro t
    cases hp : present t ns with
    | true => exact hdel ns t hp
    | false => exact hdel_absent ns t hp
  have once : ∀ t, (configureNamespace ops ns t).err = none
      ∧ present (configureNamespace ops ns t).state ns = true := by
    intro t
    obtain ⟨⟨h, hok⟩, hpres⟩ := hnew ns (ops.DeleteNamed ns t).2 (hgone t)
    simp [configureNamespace, hok, hpres]
  exact ⟨(once s).1, (once s).2, (once _).1, (once _).2⟩

/-- Witness for C4 on the list table, with "rd1" already present. -/
theorem configureNamespace_twice_witness :
    (configureNamespace tableOps "rd1" ["rd1"]).err = none
      ∧ ("rd1" ∈ (configureNamespace tableOps "rd1" ["rd1"]).state)
      ∧ (configureNamespace tableOps "rd1"
          (configureNamespace tableOps "rd1" ["rd1"]).state).err = none
      ∧ ("rd1" ∈ (configureNamespace tableOps "rd1"
          (configureNamespace tableOps "rd1" ["rd1"]).state).state) := by
  have h := configureNamespace_twice tableOps (fun s n => decide (n ∈ s))
    (by intro n s _; by_cases hn : n ∈ s <;> simp [tableOps, hn])
    (by intro n s _; by_cases hn : n ∈ s <;> simp [tableOps, hn])
    (by intro n s hn; simp at hn; simp [tableOps, hn])
    "rd1" ["rd1"]
  simpa using h

/-! ## Cutting a trace -/

theorem cons_initial (e : Event) {a b : List Event} (h : a <+: b) : e :: a <+: e :: b := by
  obtain ⟨t, ht⟩ := h
  exact ⟨t, by simp [ht]⟩

theorem cutTrace_initial (k : Nat) (tr : List Event) : cutTrace k tr <+: tr := by
  induction tr generalizing k with
  | nil => simp [cutTrace]
  | cons e es ih =>
    unfold cutTrace
    split
    · exact cons_initial e (ih k)
    · cases k with
      | zero => exact ⟨_, rfl⟩
      | succ k => exact cons_initial e (ih k)

theorem mem_of_mem_cutTrace {k : Nat} {tr : List Event} {e : Event} (h : e ∈ cutTrace k tr) :
    e ∈ tr :=
  (cutTrace_initial k tr).subset h

theorem cutTrace_of_le (k : Nat) (tr : List Event) (h : countCalls tr ≤ k) :
    cutTrace k tr = tr := by
  induction tr generalizing k with
  | nil => simp [cutTrace]
  | cons e es ih =>
    unfold cutTrace
    by_cases hl : e.isLog = true
    · simp only [hl, if_true]
      rw [ih k (by simpa [countCalls, hl] using h)]
    · simp only [hl]
      cases k with
      | zero => simp [countCalls, hl] at h
      | succ k =>
        simp only [Bool.false_eq_true, if_false]
        rw [ih k (by simpa [countCalls, hl] using h)]

theorem takeWhile_isLog_initial_cutTrace (k : Nat) (tr : List Event) :
    tr.takeWhile Event.isLog <+: cutTrace k tr := by
  induction tr with
  | nil => simp [cutTrace]
  | cons e es ih =>
    by_cases hl : e.isLog = true
    · simp only [List.takeWhile, hl, cutTrace, if_true]
      exact cons_initial e ih
    · simp [List.takeWhile, hl]

theorem takeThrough_initial_cutTrace {x : Event} (hx : x.isLog = false) (k : Nat)
    (tr : List Event) (h : x ∈ cutTrace k tr) : takeThrough x tr <+: cutTrace k tr := by
  induction tr generalizing k with
  | nil => simp [cutTrace] at h
  | cons e es ih =>
    by_cases hex : e = x
    · subst hex
      cases k with
      | zero => simp [cutTrace, hx] at h
      | succ k =>
        simp only [takeThrough, if_true, cutTrace, hx, Bool.false_eq_true, if_false]
        exact cons_initial e (takeWhile_isLog_initial_cutTrace k es)
    · by_cases hl : e.isLog = true
      · simp only [cutTrace, hl, if_true, List.mem_cons] at h
        rcases h with h | h
        · exact absurd h.symm hex
        · simp only [takeThrough, hex, if_false, cutTrace, hl, if_true]
          exact cons_initial e (ih k h)
      · cases k with
        | zero => simp [cutTrace, hl] at h
        | succ k =>
          simp only [cutTrace, hl, Bool.false_eq_true, if_false, List.mem_cons] at h
          rcases h with h | h
          · exact absurd h.symm hex
          · simp only [takeThrough, hex, if_false, cutTrace, hl, Bool.false_eq_true]
            exact cons_initial e (ih k h)

/-- A cut that keeps a call after which the trace has only logging keeps the
whole trace. -/
theorem cutTrace_of_last_call {x : Event} (hx : x.isLog = false) (k : Nat) (tr : List Event)
    (h : x ∈ cutTrace k tr) (hlast : takeThrough x tr = tr) : cutTrace k tr = tr := by
  have h1 := takeThrough_initial_cutTrace hx k tr h
  rw [hlast] at h1
  have h2 := cutTrace_initial k tr
  exact h2.eq_of_length (le_antisymm h2.length_le h1.length_le)

theorem countCalls_le_of_cutTrace_eq (k : Nat) (tr : List Event) (h : cutTrace k tr = tr) :
    countCalls tr ≤ k := by
  induction tr generalizing k with
  | nil => simp [countCalls]
  | cons e es ih =>
    by_cases hl : e.isLog = true
    · simp only [cutTrace, hl, if_true, List.cons.injEq, true_and] at h
      simpa [countCalls, hl] using ih k h
    · cases k with
      | zero => simp [cutTrace, hl] at h
      | succ k =>
        simp only [cutTrace, hl, Bool.false_eq_true, if_false, List.cons.injEq, true_and] at h
        simpa [countCalls, hl] using ih k h

theorem takeThrough_append {x : Event} (pre rest : List Event) (h : x ∉ pre) :
    takeThrough x (pre ++ rest) = pre ++ takeThrough x rest := by
  induction pre with
  | nil => rfl
  | cons e es ih =>
    have hne : ¬ e = x := fun he => h (he ▸ List.mem_cons_self _ _)
    have hes : x ∉ es := fun he => h (List.mem_cons_of_mem _ he)
    simp [takeThrough, hne, ih hes]

theorem mem_takeThrough {x : Event} (tr : List Event) (h : x ∈ tr) : x ∈ takeThrough x tr := by
  induction tr with
  | nil => simp at h
  | cons e es ih =>
    by_cases hex : e = x
    · simp [takeThrough, hex]
    · have hes : x ∈ es := by
        rcases List.mem_cons.mp h with h | h
        · exact absurd h.symm hex
        · exact h
      simp [takeThrough, hex, ih hes]

theorem countCalls_append (a b : List Event) :
    countCalls (a ++ b) = countCalls a + countCalls b := by
  simp [countCalls, List.filter_append]

/-! ## A run that a panic may cut -/

theorem interrupt_trace {σ : Type} (ops : NetnsOps σ) (s : σ) (k : Nat) (r : Run σ) :
    (Run.interrupt ops s k r).trace = cutTrace k r.trace := by
  unfold Run.interrupt
  split
  · rename_i h
    exact (cutTrace_of_le k r.trace h).symm
  · rfl

theorem interrupt_of_le {σ : Type} (ops : NetnsOps σ) (s : σ) (k : Nat) (r : Run σ)
    (h : countCalls r.trace ≤ k) : Run.interrupt ops s k r = r := by
  simp [Run.interrupt, h]

/-- A run that does not end panicking has not been cut. -/
theorem interrupt_of_outcome {σ : Type} (ops : NetnsOps σ) (s : σ) (k : Nat) (r : Run σ)
    (h : (Run.interrupt ops s k r).outcome ≠ Outcome.panicked) : Run.interrupt ops s k r = r := by
  unfold Run.interrupt at h ⊢
  split
  · rfl
  · rename_i hk
    simp [hk] at h

/-- A run whose trace holds its last call has not been cut. -/
theorem interrupt_of_last_call {σ : Type} (ops : NetnsOps σ) (s : σ) (k : Nat) (r : Run σ)
    {x : Event} (hx : x.isLog = false) (h : x ∈ (Run.interrupt ops s k r).trace)
    (hlast : takeThrough x r.trace = r.trace) : Run.interrupt ops s k r = r := by
  rw [interrupt_trace] at h
  exact interrupt_of_le ops s k r
    (countCalls_le_of_cutTrace_eq k r.trace (cutTrace_of_last_call hx k r.trace h hlast))

/-- The events of a cut run are events of the run. -/
theorem mem_of_mem_interrupt {σ : Type} {ops : NetnsOps σ} {s : σ} {k : Nat} {r : Run σ}
    {e : Event} (h : e ∈ (Run.interrupt ops s k r).trace) : e ∈ r.trace := by
  rw [interrupt_trace] at h
  exact mem_of_mem_cutTrace h

/-- A cut run that holds a call holds the trace up to that call and the
logging after it. -/
theorem takeThrough_initial_interrupt {σ : Type} (ops : NetnsOps σ) (s : σ) (k : Nat) (r : Run σ)
    {x : Event} (hx : x.isLog = false) (h : x ∈ (Run.interrupt ops s k r).trace) :
    takeThrough x r.trace <+: (Run.interrupt ops s k r).trace := by
  rw [interrupt_trace] at h ⊢
  exact takeThrough_initial_cutTrace hx k r.trace h

/-! ## The main goroutine -/

@[simp] theorem Command_args (lp : String → String × Option GoError) (name : String)
    (arg : List String) : (Command lp name arg).args = name :: arg := by
  unfold Command
  split <;> rfl

@[simp] theorem Command_stdin (lp : String → String × Option GoError) (name : String)
    (arg : List String) : (Command lp name arg).stdin = none := by
  unfold Command
  split <;> rfl

@[simp] theorem Command_stdout (lp : String → String × Option GoError) (name : String)
    (arg : List String) : (Command lp name arg).stdout = none := by
  unfold Command
  split <;> rfl

@[simp] theorem Command_stderr (lp : String → String × Option GoError) (name : String)
    (arg : List String) : (Command lp name arg).stderr = none := by
  unfold Command
  split <;> rfl

@[simp] theorem Command_extraFiles (lp : String → String × Option GoError) (name : String)
    (arg : List String) : (Command lp name arg).extraFiles = [] := by
  unfold Command
  split <;> rfl

/-- The name of the isolation command has separators: nothing is looked up,
and its `Start` gives what the system gives. -/
@[simp] theorem unshareCmd_Start (lp : String → String × Option GoError) (arg : String)
    (res : Res Int) : (unshareCmd lp arg).Start res = res := by
  have hb : filepathBase "/usr/bin/nsenter" ≠ "/usr/bin/nsenter" := by decide
  simp [unshareCmd, Command, hb, Cmd.Start]

/-- Either `main` never gets past its receive from `done`, logging only and
not ending in success, or it receives and goes on with `dialStage`, which a
panic of the listener may cut. -/
theorem main_cases {σ : Type} (env : Env σ) :
    ((∀ ev ∈ (main env).trace, ev.isLog = true) ∧ (main env).outcome ≠ Outcome.success)
      ∨ ∃ k, main env
          = Run.after
              [Event.log Level.info (logv [LogArg.str "Starting handhsake..."]), Event.recvDone]
              (Run.interrupt env.netns env.nsState k (dialStage env)) := by
  by_cases h1 : env.childPath = ""
  · left; simp [main, h1, fatalRun, Event.isLog]
  by_cases h2 : env.unshareArg = ""
  · left; simp [main, h1, h2, fatalRun, Event.isLog]
  by_cases hs : Event.send true ∈ (listenForHandshake env.listenErr env.peers 1).2
  · right
    by_cases hp : (listenForHandshake env.listenErr env.peers 1).1 = Ending.panicked
    · exact ⟨env.panicAfter, by simp [main, h1, h2, handshakeStage, hs, hp, Run.after]⟩
    · refine ⟨countCalls (dialStage env).trace, ?_⟩
      rw [interrupt_of_le _ _ _ _ (le_refl _)]
      simp [main, h1, h2, handshakeStage, hs, hp, Run.after]
  · left
    simp only [main, h1, h2, if_false, handshakeStage, hs]
    split <;> simp [Run.after, Event.isLog]

/-- Either `dialStage` ends before the isolation process is started, having
performed setup events only and not ending in success, or it performs
`setupEvents` and goes on with `isolationStage`. -/
theorem dialStage_reaches_isolation {σ : Type} (env : Env σ) :
    ((∀ ev ∈ (dialStage env).trace, ev.isSetup = true)
        ∧ (dialStage env).outcome ≠ Outcome.success)
      ∨ ∃ conn rdNs, env.dial = Res.ok conn
          ∧ (env.netns.NewNamed "rd1" (env.netns.DeleteNamed "rd1" env.nsState).2).1 = Res.ok rdNs
          ∧ dialStage env
            = Run.after (setupEvents env conn rdNs)
                (isolationStage env
                  (env.netns.NewNamed "rd1" (env.netns.DeleteNamed "rd1" env.nsState).2).2 conn) := by
  cases hd : env.dial with
  | fail e =>
    left
    simp [dialStage, hd, fatalRun, Run.after, Event.isSetup]
  | ok conn =>
    cases hc : (env.netns.NewNamed "rd1" (env.netns.DeleteNamed "rd1" env.nsState).2).1 with
    | fail e =>
      left
      simp [dialStage, hd, namespaceStage, configureNamespace, hc, errorsWrap, fatalRun,
        Run.after, Event.isSetup]
    | ok rdNs =>
      right
      refine ⟨conn, rdNs, rfl, rfl, ?_⟩
      simp [dialStage, hd, namespaceStage, configureNamespace, hc, Run.after, setupEvents]

theorem isLate_of_isHandoff (ev : Event) (h : ev.isHandoff = true) : ev.isLate = true := by
  cases ev <;> simp_all [Event.isHandoff, Event.isLate]

theorem waitStage_isHandoff {σ : Type} (env : Env σ) (s : σ) (c : Cmd) :
    (waitStage env s c).trace.all Event.isHandoff = true := by
  cases hx : env.childWait <;> simp [waitStage, fatalRun, Run.after, hx, Event.isHandoff]

theorem startStage_isHandoff {σ : Type} (env : Env σ) (s : σ) (conn : Conn) (c : Cmd)
    (lf : Option File) : (startStage env s conn c lf).trace.all Event.isHandoff = true := by
  cases hf : env.connFile with
  | fail e => simp [startStage, fatalRun, Run.after, hf, Event.isHandoff]
  | ok f =>
    cases hst : Cmd.Start { c with extraFiles := [f] } env.childStart with
    | fail e => simp [startStage, fatalRun, Run.after, hf, hst, Event.isHandoff]
    | ok pid =>
      have hw := waitStage_isHandoff env s { c with extraFiles := [f] }
      simp [startStage, Run.after, hf, hst, Event.isHandoff, hw]

/-- From the opening of the log file on there are only handoff events. -/
theorem handoffStage_isHandoff {σ : Type} (env : Env σ) (s : σ) (conn : Conn) :
    (handoffStage env s conn).trace.all Event.isHandoff = true := by
  cases hl : env.createLog with
  | fail e =>
    have h := startStage_isHandoff env s conn (Command env.lookPath env.childPath ["-debug"]) none
    simpa [handoffStage, Run.after, hl, Event.isHandoff] using h
  | ok lf =>
    have h := startStage_isHandoff env s conn
      { Command env.lookPath env.childPath ["-debug"] with
        stdout := some lf, stderr := some lf } (some lf)
    simpa [handoffStage, Run.after, hl, Event.isHandoff] using h

theorem mem_handoffStage_isHandoff {σ : Type} {env : Env σ} {s : σ} {conn : Conn} {ev : Event}
    (h : ev ∈ (handoffStage env s conn).trace) : ev.isHandoff = true :=
  List.all_eq_true.mp (handoffStage_isHandoff env s conn) ev h

/-- From the start of the isolation process on there are only late events. -/
theorem isolationStage_isLate {σ : Type} (env : Env σ) (s : σ) (conn : Conn) :
    ∀ ev ∈ (isolationStage env s conn).trace, ev.isLate = true := by
  intro ev hev
  cases hu : env.unshareStart with
  | fail e =>
    simp [isolationStage, fatalRun, Run.after, hu] at hev
    rcases hev with rfl | rfl <;> rfl
  | ok pid =>
    cases hw : env.writePid with
    | some e =>
      simp [isolationStage, fatalRun, Run.after, hu, hw] at hev
      rcases hev with rfl | rfl | rfl <;> rfl
    | none =>
      simp [isolationStage, Run.after, hu, hw] at hev
      rcases hev with rfl | rfl | rfl | rfl | hev
      · rfl
      · rfl
      · rfl
      · rfl
      · exact isLate_of_isHandoff ev (mem_handoffStage_isHandoff hev)

/-- After the dial there is no other dial. -/
theorem namespaceStage_no_dial {σ : Type} (env : Env σ) (conn : Conn) (cid port : Nat)
    (r : Res Conn) : Event.dial cid port r ∉ (namespaceStage env conn).trace := by
  intro h
  cases hc : (env.netns.NewNamed "rd1" (env.netns.DeleteNamed "rd1" env.nsState).2).1 with
  | fail e => simp [namespaceStage, configureNamespace, hc, errorsWrap, fatalRun, Run.after] at h
  | ok rdNs =>
    simp [namespaceStage, configureNamespace, hc, Run.after] at h
    simpa [Event.isLate] using isolationStage_isLate env _ conn _ h

theorem waitStage_stages {σ : Type} (env : Env σ) (s : σ) (c : Cmd) :
    stages (waitStage env s c).trace = [] := by
  cases hx : env.childWait <;> simp [waitStage, fatalRun, Run.after, hx, stages, stageOf]

theorem startStage_stages {σ : Type} (env : Env σ) (s : σ) (conn : Conn) (c : Cmd)
    (lf : Option File) (h : (startStage env s conn c lf).outcome = Outcome.success) :
    stages (startStage env s conn c lf).trace = [Stage.switchRunning] := by
  cases hf : env.connFile with
  | fail e => simp [startStage, fatalRun, Run.after, hf] at h
  | ok f =>
    cases hst : Cmd.Start { c with extraFiles := [f] } env.childStart with
    | fail e => simp [startStage, fatalRun, Run.after, hf, hst] at h
    | ok pid =>
      have hw := waitStage_stages env s { c with extraFiles := [f] }
      simp only [stages] at hw
      simp [startStage, Run.after, hf, hst, stages, stageOf, hw]

theorem handoffStage_stages {σ : Type} (env : Env σ) (s : σ) (conn : Conn)
    (h : (handoffStage env s conn).outcome = Outcome.success) :
    stages (handoffStage env s conn).trace = [Stage.switchRunning] := by
  cases hl : env.createLog with
  | fail e =>
    have hs := startStage_stages env s conn (Command env.lookPath env.childPath ["-debug"]) none
      (by simpa [handoffStage, Run.after, hl] using h)
    simpa [handoffStage, Run.after, hl, stages, stageOf] using hs
  | ok lf =>
    have hs := startStage_stages env s conn
      { Command env.lookPath env.childPath ["-debug"] with
        stdout := some lf, stderr := some lf } (some lf)
      (by simpa [handoffStage, Run.after, hl] using h)
    simpa [handoffStage, Run.after, hl, stages, stageOf] using hs

/-- The stage completions of `dialStage` when it ends in success. -/
theorem dialStage_stages {σ : Type} (env : Env σ)
    (h : (dialStage env).outcome = Outcome.success) :
    stages (dialStage env).trace
      = [Stage.channelDialed, Stage.namespaceReady, Stage.isolationLaunched,
          Stage.switchRunning] := by
  rcases dialStage_reaches_isolation env with ⟨-, hne⟩ | ⟨conn, rdNs, hd, hc, hm⟩
  · exact absurd h hne
  · rw [hm] at h ⊢
    cases hu : env.unshareStart with
    | fail e => simp [isolationStage, fatalRun, Run.after, hu] at h
    | ok pid =>
      cases hw : env.writePid with
      | some e => simp [isolationStage, fatalRun, Run.after, hu, hw] at h
      | none =>
        have hs := handoffStage_stages env _ conn
          (by simpa [isolationStage, Run.after, hu, hw] using h)
        simp only [stages] at hs
        simp [isolationStage, Run.after, hu, hw, setupEvents, stages, stageOf, hs]

/-- C1 as stated fails: in the run `sampleEnv`, which succeeds, the namespace
is not created first; the stage completions are not in the claimed order. -/
theorem main_namespace_not_first :
    (main sampleEnv).outcome = Outcome.success
      ∧ stages (main sampleEnv).trace
        ≠ [Stage.namespaceReady, Stage.handshakeDone, Stage.channelDialed,
            Stage.isolationLaunched, Stage.switchRunning] := by
  decide

/-- C1, amended: in every successful run of `main` the stage completions are,
in this order and once each: handshake done, channel dialed, namespace ready,
isolation launched, switch running. -/
theorem main_stage_order {σ : Type} (env : Env σ) (h : (main env).outcome = Outcome.success) :
    stages (main env).trace
      = [Stage.handshakeDone, Stage.channelDialed, Stage.namespaceReady,
          Stage.isolationLaunched, Stage.switchRunning] := by
  rcases main_cases env with ⟨-, hne⟩ | ⟨k, hm⟩
  · exact absurd h hne
  · rw [hm] at h ⊢
    have hcut := interrupt_of_outcome env.netns env.nsState k (dialStage env)
      (by
        intro hp
        simp [Run.after, hp] at h)
    rw [hcut] at h ⊢
    have hst := dialStage_stages env (by simpa [Run.after] using h)
    simp only [stages] at hst
    simp [Run.after, stages, stageOf, hst]

/-- Witness for C1, amended: the run `sampleEnv`. -/
theorem main_stage_order_witness :
    (main sampleEnv).outcome = Outcome.success
      ∧ stages (main sampleEnv).trace
        = [Stage.handshakeDone, Stage.channelDialed, Stage.namespaceReady,
            Stage.isolationLaunched, Stage.switchRunning] :=
  ⟨by decide, main_stage_order sampleEnv (by decide)⟩

theorem Itoa_eq_toString (i : Int) : Itoa i = toString i := by
  cases i with
  | ofNat n =>
    have hn : ¬ ((Int.ofNat n) < 0) := by simp
    simp only [Itoa, hn, if_false]
    rfl
  | negSucc n =>
    have hn : (Int.negSucc n) < 0 := Int.negSucc_lt_zero n
    simp only [Itoa, hn, if_true]
    rfl

/-- The bytes `main` writes to the PID file are the UTF-8 bytes of the decimal
text of the process id. -/
theorem bytes_Itoa (pid : Int) : bytes (Itoa pid) = (String.toUTF8 (toString pid)).data.toList := by
  rw [Itoa_eq_toString]
  rfl

/-- The shape of `dialStage` when its trace holds the start of the isolation
process: the setup events, the start, and what `isolationStage` does next. -/
theorem dialStage_of_isolation_start {σ : Type} (env : Env σ) (cmd : Cmd) (res : Res Int)
    (h : Event.cmdStart Proc.isolation cmd res ∈ (dialStage env).trace) :
    cmd = unshareCmd env.lookPath env.unshareArg ∧ res = env.unshareStart
      ∧ ∃ conn rdNs,
          dialStage env
            = Run.after (setupEvents env conn rdNs)
                (isolationStage env
                  (env.netns.NewNamed "rd1" (env.netns.DeleteNamed "rd1" env.nsState).2).2 conn) := by
  rcases dialStage_reaches_isolation env with ⟨hearly, -⟩ | ⟨conn, rdNs, hd, hc, hm⟩
  · simpa [Event.isSetup] using hearly _ h
  · have hboth : cmd = unshareCmd env.lookPath env.unshareArg ∧ res = env.unshareStart := by
      rw [hm] at h
      cases hu : env.unshareStart with
      | fail e => simpa [isolationStage, fatalRun, Run.after, hu, setupEvents] using h
      | ok pid =>
        cases hw : env.writePid with
        | some e => simpa [isolationStage, fatalRun, Run.after, hu, hw, setupEvents] using h
        | none =>
          simp [isolationStage, Run.after, hu, hw, setupEvents] at h
          rcases h with h | h
          · exact h
          · simpa [Event.isHandoff] using mem_handoffStage_isHandoff h
    exact ⟨hboth.1, hboth.2, conn, rdNs, hm⟩

theorem Run.after_after {σ : Type} (a b : List Event) (r : Run σ) :
    Run.after a (Run.after b r) = Run.after (a ++ b) r := by
  simp [Run.after]

/-- C8: in the run `listenerPanicEnv` the switch child is started and would
exit cleanly, but the second `Accept` of the listener fails while `main` waits
for the child: the listener goroutine panics and the agent ends by that panic,
with no result of the wait, where the claim has the wait decide the outcome. -/
theorem main_listener_panic_ends_agent :
    (listenForHandshake listenerPanicEnv.listenErr listenerPanicEnv.peers 1).1 = Ending.panicked
      ∧ Event.cmdStart Proc.switch sampleSwitchCmd (Res.ok 42) ∈ (main listenerPanicEnv).trace
      ∧ listenerPanicEnv.childWait = none
      ∧ Event.cmdWait sampleSwitchCmd none ∉ (main listenerPanicEnv).trace
      ∧ (main listenerPanicEnv).outcome = Outcome.panicked := by
  decide

theorem waitStage_of_wait {σ : Type} (env : Env σ) (s : σ) (c cmd : Cmd) (w : Option GoError)
    (h : Event.cmdWait cmd w ∈ (waitStage env s c).trace) :
    w = env.childWait
      ∧ takeThrough (Event.cmdWait cmd w) (waitStage env s c).trace = (waitStage env s c).trace
      ∧ ((waitStage env s c).outcome = Outcome.success ↔ w = none)
      ∧ (∀ e, w = some e →
          (waitStage env s c).outcome
            = Outcome.fatal
                (logv [LogArg.err (GoError.errorf "vm-switch exited with error: " e)])) := by
  cases hx : env.childWait with
  | none =>
    have hcw : cmd = c ∧ w = none := by simpa [waitStage, Run.after, hx] using h
    obtain ⟨rfl, rfl⟩ := hcw
    simp [waitStage, Run.after, hx, takeThrough, Event.isLog]
  | some e0 =>
    have hcw : cmd = c ∧ w = some e0 := by simpa [waitStage, fatalRun, Run.after, hx] using h
    obtain ⟨rfl, rfl⟩ := hcw
    simp [waitStage, fatalRun, Run.after, hx, takeThrough, Event.isLog]

theorem startStage_reaches_wait {σ : Type} (env : Env σ) (s : σ) (conn : Conn) (c : Cmd)
    (lf : Option File) (cmd : Cmd) (w : Option GoError)
    (h : Event.cmdWait cmd w ∈ (startStage env s conn c lf).trace) :
    ∃ pre c2, startStage env s conn c lf = Run.after pre (waitStage env s c2)
      ∧ Event.cmdWait cmd w ∉ pre := by
  cases hf : env.connFile with
  | fail e => simp [startStage, fatalRun, Run.after, hf] at h
  | ok f =>
    cases hst : Cmd.Start { c with extraFiles := [f] } env.childStart with
    | fail e => simp [startStage, fatalRun, Run.after, hf, hst] at h
    | ok pid =>
      simp only [startStage, hf, hst, Run.after_after]
      exact ⟨_, _, rfl, by simp⟩

theorem handoffStage_reaches_wait {σ : Type} (env : Env σ) (s : σ) (conn : Conn) (cmd : Cmd)
    (w : Option GoError) (h : Event.cmdWait cmd w ∈ (handoffStage env s conn).trace) :
    ∃ pre c2, handoffStage env s conn = Run.after pre (waitStage env s c2)
      ∧ Event.cmdWait cmd w ∉ pre := by
  cases hl : env.createLog with
  | fail e =>
    simp only [handoffStage, hl, Run.after_after] at h ⊢
    have h1 : Event.cmdWait cmd w
        ∈ (startStage env s conn (Command env.lookPath env.childPath ["-debug"]) none).trace := by
      simpa [Run.after] using h
    obtain ⟨pre, c2, hS, hpre⟩ := startStage_reaches_wait env s conn _ _ cmd w h1
    rw [hS, Run.after_after]
    exact ⟨_, _, rfl, by simpa using hpre⟩
  | ok lf =>
    simp only [handoffStage, hl] at h ⊢
    have h1 : Event.cmdWait cmd w
        ∈ (startStage env s conn
            { Command env.lookPath env.childPath ["-debug"] with
              stdout := some lf, stderr := some lf } (some lf)).trace := by
      simpa [Run.after] using h
    obtain ⟨pre, c2, hS, hpre⟩ := startStage_reaches_wait env s conn _ _ cmd w h1
    rw [hS, Run.after_after]
    exact ⟨_, _, rfl, by simpa using hpre⟩

/-- The shape of `dialStage` when its trace holds the wait for the switch
child: events none of which is that wait, and then `waitStage`. -/
theorem dialStage_reaches_wait {σ : Type} (env : Env σ) (cmd : Cmd) (w : Option GoError)
    (h : Event.cmdWait cmd w ∈ (dialStage env).trace) :
    ∃ pre s c, dialStage env = Run.after pre (waitStage env s c)
      ∧ Event.cmdWait cmd w ∉ pre := by
  rcases dialStage_reaches_isolation env with ⟨hearly, -⟩ | ⟨conn, rdNs, hd, hc, hm⟩
  · simpa [Event.isSetup] using hearly _ h
  · rw [hm] at h ⊢
    cases hu : env.unshareStart with
    | fail e => simp [isolationStage, fatalRun, Run.after, hu, setupEvents] at h
    | ok pid =>
      cases hw : env.writePid with
      | some e => simp [isolationStage, fatalRun, Run.after, hu, hw, setupEvents] at h
      | none =>
        have h1 : Event.cmdWait cmd w
            ∈ (handoffStage env
                (env.netns.NewNamed "rd1" (env.netns.DeleteNamed "rd1" env.nsState).2).2
                conn).trace := by
          simpa [isolationStage, Run.after, hu, hw, setupEvents] using h
        obtain ⟨pre, c2, hH, hpre⟩ := handoffStage_reaches_wait env _ conn cmd w h1
        simp only [isolationStage, hu, hw, unshareCmd_Start, hH, Run.after_after]
        exact ⟨_, _, _, rfl, by simpa [setupEvents] using hpre⟩

/-- Once the wait for the switch child has returned, it decides the outcome:
success exactly when it returned no error, and otherwise `logrus.Fatal` of
the error wrapped with "vm-switch exited with error: ". -/
theorem main_wait_decides {σ : Type} (env : Env σ) (cmd : Cmd) (w : Option GoError)
    (h : Event.cmdWait cmd w ∈ (main env).trace) :
    w = env.childWait
      ∧ ((main env).outcome = Outcome.success ↔ w = none)
      ∧ (∀ e, w = some e →
          (main env).outcome
            = Outcome.fatal
                (logv [LogArg.err (GoError.errorf "vm-switch exited with error: " e)])) := by
  rcases main_cases env with ⟨hlog, -⟩ | ⟨k, hm⟩
  · simpa [Event.isLog] using hlog _ h
  · rw [hm] at h ⊢
    simp only [Run.after, List.mem_append, List.mem_cons, List.mem_singleton, reduceCtorEq,
      false_or, List.not_mem_nil] at h
    have hseq := mem_of_mem_interrupt h
    obtain ⟨pre, s, c, hR, hpre⟩ := dialStage_reaches_wait env cmd w hseq
    have hin : Event.cmdWait cmd w ∈ (waitStage env s c).trace := by
      rw [hR] at hseq
      rcases List.mem_append.mp hseq with h1 | h1
      · exact absurd h1 hpre
      · exact h1
    obtain ⟨hw, hlast, hout, hfatal⟩ := waitStage_of_wait env s c cmd w hin
    have hcut := interrupt_of_last_call env.netns env.nsState k (dialStage env)
      (x := Event.cmdWait cmd w) rfl h
      (by
        rw [hR]
        simp only [Run.after]
        rw [takeThrough_append _ _ hpre, hlast])
    rw [hcut, hR]
    exact ⟨hw, hout, hfatal⟩

theorem waitStage_no_start {σ : Type} (env : Env σ) (s : σ) (c : Cmd) (p : Proc) (cmd : Cmd)
    (res : Res Int) : Event.cmdStart p cmd res ∉ (waitStage env s c).trace := by
  cases hx : env.childWait <;> simp [waitStage, fatalRun, Run.after, hx]

theorem waitStage_no_create {σ : Type} (env : Env σ) (s : σ) (c : Cmd) (p : String)
    (r : Res File) : Event.createFile p r ∉ (waitStage env s c).trace := by
  cases hx : env.childWait <;> simp [waitStage, fatalRun, Run.after, hx]

/-- The start of the switch child in `startStage`: it comes after a successful
`conn.File()`, on the command with the descriptor as its only extra file, and
its result is that of `Start` on this command. -/
theorem startStage_switch {σ : Type} (env : Env σ) (s : σ) (conn : Conn) (c : Cmd)
    (lf : Option File) (cmd : Cmd) (res : Res Int)
    (h : Event.cmdStart Proc.switch cmd res ∈ (startStage env s conn c lf).trace) :
    ∃ f, env.connFile = Res.ok f ∧ cmd = { c with extraFiles := [f] }
      ∧ res = cmd.Start env.childStart := by
  cases hf : env.connFile with
  | fail e => simp [startStage, fatalRun, Run.after, hf] at h
  | ok f =>
    refine ⟨f, rfl, ?_⟩
    cases hst : Cmd.Start { c with extraFiles := [f] } env.childStart with
    | fail e =>
      have hc : cmd = { c with extraFiles := [f] } ∧ res = Res.fail e := by
        simpa [startStage, fatalRun, Run.after, hf, hst] using h
      rw [hc.1, hst]
      exact ⟨rfl, hc.2⟩
    | ok pid =>
      simp only [startStage, hf, hst, Run.after, List.cons_append, List.nil_append,
        List.mem_cons, reduceCtorEq, false_or] at h
      rcases h with h | h
      · have hc : cmd = { c with extraFiles := [f] } ∧ res = Res.ok pid := by
          simpa using h
        rw [hc.1, hst]
        exact ⟨rfl, hc.2⟩
      · exact absurd h (waitStage_no_start env s _ _ _ _)

theorem startStage_no_create {σ : Type} (env : Env σ) (s : σ) (conn : Conn) (c : Cmd)
    (lf : Option File) (p : String) (r : Res File) :
    Event.createFile p r ∉ (startStage env s conn c lf).trace := by
  intro h
  cases hf : env.connFile with
  | fail e => simp [startStage, fatalRun, Run.after, hf] at h
  | ok f =>
    cases hst : Cmd.Start { c with extraFiles := [f] } env.childStart with
    | fail e => simp [startStage, fatalRun, Run.after, hf, hst] at h
    | ok pid =>
      simp only [startStage, hf, hst, Run.after, List.cons_append, List.nil_append,
        List.mem_cons, reduceCtorEq, false_or] at h
      exact absurd h (waitStage_no_create env s _ _ _)

/-- The start of the switch child in `handoffStage`: the descriptor of the
connection is the only extra file of the command, and its standard output and
standard error are the log file when that opened and unset when it did not. -/
theorem handoffStage_switch {σ : Type} (env : Env σ) (s : σ) (conn : Conn) (cmd : Cmd)
    (res : Res Int) (h : Event.cmdStart Proc.switch cmd res ∈ (handoffStage env s conn).trace) :
    (∃ f, env.connFile = Res.ok f ∧ cmd.extraFiles = [f])
      ∧ cmd.args = [env.childPath, "-debug"]
      ∧ res = cmd.Start env.childStart
      ∧ (∀ e, env.createLog = Res.fail e → cmd.stdout = none ∧ cmd.stderr = none)
      ∧ (∀ lf, env.createLog = Res.ok lf → cmd.stdout = some lf ∧ cmd.stderr = some lf) := by
  cases hl : env.createLog with
  | fail e =>
    have h1 : Event.cmdStart Proc.switch cmd res
        ∈ (startStage env s conn (Command env.lookPath env.childPath ["-debug"]) none).trace := by
      simpa [handoffStage, Run.after, hl] using h
    obtain ⟨f, hf, hcmd, hres⟩ := startStage_switch env s conn _ _ cmd res h1
    refine ⟨⟨f, hf, ?_⟩, ?_, hres, ?_, ?_⟩ <;> simp [hcmd]
  | ok lf =>
    have h1 : Event.cmdStart Proc.switch cmd res
        ∈ (startStage env s conn
            { Command env.lookPath env.childPath ["-debug"] with
              stdout := some lf, stderr := some lf } (some lf)).trace := by
      simpa [handoffStage, Run.after, hl] using h
    obtain ⟨f, hf, hcmd, hres⟩ := startStage_switch env s conn _ _ cmd res h1
    refine ⟨⟨f, hf, ?_⟩, ?_, hres, ?_, ?_⟩ <;> simp [hcmd]

/-- The opening of the log file in `handoffStage` is the call on
"/var/logs/vm-switch.log", and a failure is logged right after it. -/
theorem handoffStage_create {σ : Type} (env : Env σ) (s : σ) (conn : Conn) (p : String)
    (r : Res File) (h : Event.createFile p r ∈ (handoffStage env s conn).trace) :
    p = "/var/logs/vm-switch.log" ∧ r = env.createLog
      ∧ (∀ e, r = Res.fail e →
          Event.log Level.error
              (logf "failed to create log file for vm-switch: %v" [LogArg.err e])
            ∈ takeThrough (Event.createFile p r) (handoffStage env s conn).trace) := by
  cases hl : env.createLog with
  | fail e =>
    simp only [handoffStage, hl, Run.after, List.cons_append, List.nil_append, List.mem_cons,
      reduceCtorEq, false_or] at h
    rcases h with h | h
    · have hpr : p = "/var/logs/vm-switch.log" ∧ r = Res.fail e := by simpa using h
      obtain ⟨rfl, rfl⟩ := hpr
      simp [handoffStage, hl, Run.after, takeThrough, Event.isLog]
    · exact absurd h (startStage_no_create env s conn _ _ _ _)
  | ok lf =>
    simp only [handoffStage, hl, Run.after, List.cons_append, List.nil_append, List.mem_cons]
      at h
    rcases h with h | h
    · have hpr : p = "/var/logs/vm-switch.log" ∧ r = Res.ok lf := by simpa using h
      obtain ⟨rfl, rfl⟩ := hpr
      simp
    · exact absurd h (startStage_no_create env s conn _ _ _ _)

/-- With a descriptor from `conn.File()`, `handoffStage` calls `Start` on the
command of the switch child. -/
theorem handoffStage_starts {σ : Type} (env : Env σ) (s : σ) (conn : Conn) (f : File)
    (hf : env.connFile = Res.ok f) :
    ∃ cmd, Event.cmdStart Proc.switch cmd (cmd.Start env.childStart)
      ∈ (handoffStage env s conn).trace := by
  cases hl : env.createLog with
  | fail e =>
    exact ⟨{ Command env.lookPath env.childPath ["-debug"] with extraFiles := [f] },
      by simp [handoffStage, startStage, Run.after, hl, hf]⟩
  | ok lf =>
    exact ⟨{ Command env.lookPath env.childPath ["-debug"] with
        stdout := some lf, stderr := some lf, extraFiles := [f] },
      by simp [handoffStage, startStage, Run.after, hl, hf]⟩

/-- The shape of `dialStage` when its trace holds a call of the handoff: events
none of which is that call, and then `handoffStage`, which holds it. -/
theorem dialStage_reaches_handoff {σ : Type} (env : Env σ) (ev : Event)
    (h : ev ∈ (dialStage env).trace) (hh : ev.isHandoff = true) (hl : ev.isLog = false) :
    ∃ pre s conn, (dialStage env).trace = pre ++ (handoffStage env s conn).trace
      ∧ (dialStage env).outcome = (handoffStage env s conn).outcome
      ∧ ev ∉ pre ∧ ev ∈ (handoffStage env s conn).trace := by
  have hsetup : ev.isSetup = false := by
    cases ev <;> simp_all [Event.isHandoff, Event.isLog, Event.isSetup]
  rcases dialStage_reaches_isolation env with ⟨hearly, -⟩ | ⟨conn, rdNs, hd, hc, hm⟩
  · rw [hearly _ h] at hsetup
    exact absurd hsetup (by simp)
  · rw [hm] at h ⊢
    have hnot : ∀ l : List Event, (∀ e ∈ l, e.isLog = true ∨ e.isHandoff = false) → ev ∉ l := by
      intro l hall hmem
      rcases hall ev hmem with h1 | h1
      · rw [h1] at hl
        exact absurd hl (by simp)
      · rw [h1] at hh
        exact absurd hh (by simp)
    cases hu : env.unshareStart with
    | fail e =>
      exfalso
      refine hnot _ ?_ h
      simp [isolationStage, fatalRun, Run.after, hu, setupEvents, Event.isLog, Event.isHandoff]
    | ok pid =>
      cases hw : env.writePid with
      | some e =>
        exfalso
        refine hnot _ ?_ h
        simp [isolationStage, fatalRun, Run.after, hu, hw, setupEvents, Event.isLog,
          Event.isHandoff]
      | none =>
        refine ⟨setupEvents env conn rdNs
            ++ [Event.cmdStart Proc.isolation (unshareCmd env.lookPath env.unshareArg)
                  (Res.ok pid),
                Event.writeFile "/run/wsl-init.pid" (bytes (Itoa pid)) 0o644 none,
                Event.log Level.info (logf "unshare pid is: %v" [LogArg.str (Itoa pid)]),
                Event.log Level.info (logf "unshare arg is: %s" [LogArg.str env.unshareArg])],
          (env.netns.NewNamed "rd1" (env.netns.DeleteNamed "rd1" env.nsState).2).2, conn,
          ?_, ?_, ?_, ?_⟩
        · simp [isolationStage, Run.after, hu, hw]
        · simp [isolationStage, Run.after, hu, hw]
        · refine hnot _ ?_
          simp [setupEvents, Event.isLog, Event.isHandoff]
        · have hpre : ev ∉ setupEvents env conn rdNs
              ++ [Event.cmdStart Proc.isolation (unshareCmd env.lookPath env.unshareArg)
                    (Res.ok pid),
                  Event.writeFile "/run/wsl-init.pid" (bytes (Itoa pid)) 0o644 none,
                  Event.log Level.info (logf "unshare pid is: %v" [LogArg.str (Itoa pid)]),
                  Event.log Level.info
                    (logf "unshare arg is: %s" [LogArg.str env.unshareArg])] := by
            refine hnot _ ?_
            simp [setupEvents, Event.isLog, Event.isHandoff]
          have h2 : ev ∈ (setupEvents env conn rdNs
              ++ [Event.cmdStart Proc.isolation (unshareCmd env.lookPath env.unshareArg)
                    (Res.ok pid),
                  Event.writeFile "/run/wsl-init.pid" (bytes (Itoa pid)) 0o644 none,
                  Event.log Level.info (logf "unshare pid is: %v" [LogArg.str (Itoa pid)]),
                  Event.log Level.info
                    (logf "unshare arg is: %s" [LogArg.str env.unshareArg])])
              ++ (handoffStage env
                  (env.netns.NewNamed "rd1" (env.netns.DeleteNamed "rd1" env.nsState).2).2
                  conn).trace := by
            simpa [isolationStage, Run.after, hu, hw] using h
          rcases List.mem_append.mp h2 with h3 | h3
          · exact absurd h3 hpre
          · exact h3

theorem countCalls_nil : countCalls [] = 0 := rfl

theorem countCalls_cons (e : Event) (es : List Event) :
    countCalls (e :: es) = (if e.isLog = true then 0 else 1) + countCalls es := by
  by_cases h : e.isLog = true <;> simp [countCalls, h, Nat.add_comm]

theorem waitStage_congr {σ : Type} (env : Env σ) (s : σ) (c1 c2 : Cmd) :
    (waitStage env s c1).outcome = (waitStage env s c2).outcome
      ∧ countCalls (waitStage env s c1).trace = countCalls (waitStage env s c2).trace := by
  cases hx : env.childWait <;>
    simp [waitStage, fatalRun, Run.after, hx, countCalls_cons, countCalls_nil, Event.isLog]

/-- The outcome of `startStage` and the number of its calls depend on the
command only through the error recorded in it, and not on the log file. -/
theorem startStage_congr {σ : Type} (env : Env σ) (s : σ) (conn : Conn) (c1 c2 : Cmd)
    (lf1 lf2 : Option File) (herr : c1.err = c2.err) :
    (startStage env s conn c1 lf1).outcome = (startStage env s conn c2 lf2).outcome
      ∧ countCalls (startStage env s conn c1 lf1).trace
        = countCalls (startStage env s conn c2 lf2).trace := by
  cases hf : env.connFile with
  | fail e =>
    simp [startStage, fatalRun, Run.after, hf, countCalls_cons, countCalls_nil, Event.isLog]
  | ok f =>
    cases hE : c2.err with
    | some e =>
      simp [startStage, fatalRun, Run.after, hf, Cmd.Start, herr, hE, countCalls_cons,
        countCalls_nil, Event.isLog]
    | none =>
      cases hcs : env.childStart with
      | fail e =>
        simp [startStage, fatalRun, Run.after, hf, Cmd.Start, herr, hE, hcs, countCalls_cons,
          countCalls_nil, Event.isLog]
      | ok pid =>
        have hw := waitStage_congr env s { c1 with extraFiles := [f], err := none }
          { c2 with extraFiles := [f], err := none }
        simpa [startStage, Run.after, hf, Cmd.Start, herr, hE, hcs, countCalls_cons,
          countCalls_nil, Event.isLog] using hw

/-- The outcome of `handoffStage` and the number of its calls do not depend on
the result of opening the log file. -/
theorem handoffStage_createLog {σ : Type} (env : Env σ) (r : Res File) (s : σ) (conn : Conn) :
    (handoffStage { env with createLog := r } s conn).outcome
        = (handoffStage env s conn).outcome
      ∧ countCalls (handoffStage { env with createLog := r } s conn).trace
        = countCalls (handoffStage env s conn).trace := by
  have key : ∀ (c1 c2 : Cmd) (lf1 lf2 : Option File), c1.err = c2.err →
      (startStage { env with createLog := r } s conn c1 lf1).outcome
          = (startStage env s conn c2 lf2).outcome
        ∧ countCalls (startStage { env with createLog := r } s conn c1 lf1).trace
          = countCalls (startStage env s conn c2 lf2).trace :=
    fun c1 c2 lf1 lf2 herr => startStage_congr env s conn c1 c2 lf1 lf2 herr
  cases r with
  | fail e1 =>
    cases hl : env.createLog with
    | fail e2 =>
      have hk := key (Command env.lookPath env.childPath ["-debug"])
        (Command env.lookPath env.childPath ["-debug"]) none none rfl
      simpa [handoffStage, Run.after, hl, countCalls_cons, Event.isLog] using hk
    | ok lf =>
      have hk := key (Command env.lookPath env.childPath ["-debug"])
        { Command env.lookPath env.childPath ["-debug"] with
          stdout := some lf, stderr := some lf } none (some lf) rfl
      simpa [handoffStage, Run.after, hl, countCalls_cons, Event.isLog] using hk
  | ok lf1 =>
    cases hl : env.createLog with
    | fail e2 =>
      have hk := key
        { Command env.lookPath env.childPath ["-debug"] with
          stdout := some lf1, stderr := some lf1 }
        (Command env.lookPath env.childPath ["-debug"]) (some lf1) none rfl
      simpa [handoffStage, Run.after, hl, countCalls_cons, Event.isLog] using hk
    | ok lf =>
      have hk := key
        { Command env.lookPath env.childPath ["-debug"] with
          stdout := some lf1, stderr := some lf1 }
        { Command env.lookPath env.childPath ["-debug"] with
          stdout := some lf, stderr := some lf } (some lf1) (some lf) rfl
      simpa [handoffStage, Run.after, hl, countCalls_cons, Event.isLog] using hk

/-- The outcome of `dialStage` and the number of its calls do not depend on
the result of opening the log file. -/
theorem dialStage_createLog {σ : Type} (env : Env σ) (r : Res File) :
    (dialStage { env with createLog := r }).outcome = (dialStage env).outcome
      ∧ countCalls (dialStage { env with createLog := r }).trace
        = countCalls (dialStage env).trace := by
  cases hd : env.dial with
  | fail e => simp [dialStage, hd, fatalRun, Run.after]
  | ok conn =>
    cases hc : (env.netns.NewNamed "rd1" (env.netns.DeleteNamed "rd1" env.nsState).2).1 with
    | fail e =>
      simp [dialStage, hd, namespaceStage, configureNamespace, hc, errorsWrap, fatalRun, Run.after]
    | ok rdNs =>
      cases hu : env.unshareStart with
      | fail e =>
        simp [dialStage, hd, namespaceStage, configureNamespace, hc, isolationStage, hu, fatalRun,
          Run.after]
      | ok pid =>
        cases hw : env.writePid with
        | some e =>
          simp [dialStage, hd, namespaceStage, configureNamespace, hc, isolationStage, hu, hw,
            fatalRun, Run.after]
        | none =>
          have hk := handoffStage_createLog env r
            (env.netns.NewNamed "rd1" (env.netns.DeleteNamed "rd1" env.nsState).2).2 conn
          simpa [dialStage, hd, namespaceStage, configureNamespace, hc, isolationStage, hu, hw,
            Run.after, countCalls_cons, countCalls_append, Event.isLog] using hk

/-- The outcome of `main` does not depend on the result of opening the log
file. -/
theorem main_createLog {σ : Type} (env : Env σ) (r : Res File) :
    (main { env with createLog := r }).outcome = (main env).outcome := by
  obtain ⟨hout, hcount⟩ := dialStage_createLog env r
  by_cases h1 : env.childPath = ""
  · simp [main, h1, fatalRun]
  by_cases h2 : env.unshareArg = ""
  · simp [main, h1, h2, fatalRun]
  by_cases hs : Event.send true ∈ (listenForHandshake env.listenErr env.peers 1).2
  · by_cases hp : (listenForHandshake env.listenErr env.peers 1).1 = Ending.panicked
    · simp only [main, h1, h2, if_false, handshakeStage, hs, if_true, hp, Run.after,
        Run.interrupt, hcount]
      split <;> simp [hout]
    · simp [main, h1, h2, handshakeStage, hs, hp, Run.after, hout]
  · simp [main, h1, h2, handshakeStage, hs, Run.after]

end Handshake
